import Mathlib

/-!
Verification of the LC_utils sensor fleet tool (`cmd/lc-sensors/main.go` and
`internal/api/`).  The Go code is shallowly embedded: network calls are
abstracted into oracles passed as function arguments, and the decision logic
(inventory filtering, batch tag mutation, task dispatch, payload encoding) is
translated function by function.
-/

/-- Embedding of the Go `api.Sensor` struct (`internal/api/auth.go`), keeping
the fields read by the functions modelled here (`sid`, `plat`, `arch`,
`hostname`, `tags`, `is_online`); the remaining fields (IPs, timestamps,
isolation/seal flags, versions) are display-only and never consulted by the
filtering, tagging or tasking logic. -/
structure Sensor where
  SID : String
  PlatformID : Int
  Architecture : Int
  Hostname : String
  Tags : List String
  IsOnline : Bool
deriving DecidableEq, Repr

/-- Lowercase hexadecimal rendering of a natural number, as Go `fmt %x`. -/
def hexOfNat (n : Nat) : String := String.mk (Nat.toDigits 16 n)

/-- Go `fmt.Sprintf` `%x` applied to an `int64`: negative values print a
leading minus sign before the hex digits. -/
def hexOfInt (n : Int) : String :=
  if n < 0 then "-" ++ hexOfNat n.natAbs else hexOfNat n.natAbs

/-- Embedding of `(*Sensor).GetPlatformString` (`internal/api/auth.go`):
maps the LimaCharlie platform id to a human-readable name, falling back to
`Unknown (0x…)` with the hex value. -/
def Sensor.GetPlatformString (s : Sensor) : String :=
  if s.PlatformID = 268435456 then "Windows"
  else if s.PlatformID = 805306368 then "macOS"
  else if s.PlatformID = 536870912 then "Linux"
  else if s.PlatformID = 2415919104 then "Cloud"
  else "Unknown (0x" ++ hexOfInt s.PlatformID ++ ")"

/-- ASCII lower-casing of one character, as Go `strings.ToLower` acts on the
ASCII range (all strings reaching the comparisons modelled here are ASCII). -/
def asciiLower (c : Char) : Char :=
  if 'A' ≤ c ∧ c ≤ 'Z' then Char.ofNat (c.toNat + 32) else c

/-- ASCII model of Go `strings.ToLower`. -/
def lowerStr (s : String) : String := String.map asciiLower s

/-- ASCII model of Go `strings.EqualFold`: equality up to case folding. -/
def equalFold (a b : String) : Bool := lowerStr a == lowerStr b

/-- The package-level filter flag variables of `cmd/lc-sensors/main.go`
(`filterHostname`, `filterPlatform`, `filterTag`, `onlineOnly`), gathered
into one record. -/
structure FilterCriteria where
  filterHostname : String
  filterPlatform : String
  filterTag : String
  onlineOnly : Bool
deriving DecidableEq, Repr

/-- The criteria with every flag left at its zero value. -/
def emptyCriteria : FilterCriteria :=
  { filterHostname := "", filterPlatform := "", filterTag := "", onlineOnly := false }

/-- Go `strings.ReplaceAll(g, "*", ".*")` at character-list level: the
single-character pattern `*` is replaced by the two characters `.` `*`
at each occurrence. -/
def replaceStarChars : List Char → List Char
  | [] => []
  | c :: r => if c = '*' then '.' :: '*' :: replaceStarChars r else c :: replaceStarChars r

/-- Token of the regular-expression fragment produced by the glob
translation: a literal character, or `.*` (any sequence of characters). -/
inductive GTok where
  | lit (c : Char)
  | star
deriving DecidableEq, Repr

/-- Parse the translated pattern string into tokens: each `.` immediately
followed by `*` is the any-sequence wildcard `.*`; every other character is a
literal.  This models the RE2 parse of the patterns `ReplaceAll` produces
from globs made of plain (non-metacharacter) characters and `*`. -/
def parseRe : List Char → List GTok
  | '.' :: '*' :: rest => GTok.star :: parseRe rest
  | c :: rest => GTok.lit c :: parseRe rest
  | [] => []

/-- `anySuffix f s` holds when `f` holds of some suffix of `s` (including
`s` itself and the empty suffix). -/
def anySuffix (f : List Char → Bool) : List Char → Bool
  | [] => f []
  | c :: s => f (c :: s) || anySuffix f s

/-- Matching of a token sequence against a string, anchored at the start of
the string but free at the end (a match may consume any number of leading
characters of `s`): this is the semantics of matching a RE2 pattern at a
given position.  `star` (i.e. `.*`) consumes an arbitrary number of
characters, so `star :: p` matches `s` exactly when `p` matches some suffix
of `s`. -/
def matchL : List GTok → List Char → Bool
  | [], _ => true
  | GTok.lit _ :: _, [] => false
  | GTok.lit c :: p, d :: s => c == d && matchL p s
  | GTok.star :: p, s => anySuffix (matchL p) s

/-- Unanchored search, the semantics of Go `regexp.MatchString`: the pattern
matches starting at some position of the subject. -/
def reSearch (p : List GTok) (s : List Char) : Bool := anySuffix (matchL p) s

/-- The hostname/tag glob match performed by `filterSensors`
(`cmd/lc-sensors/main.go` lines 849-857 and 869-883): translate the glob with
`strings.ReplaceAll(g, "*", ".*")` and run the result through the unanchored
`regexp.MatchString` search against the subject. -/
def hostGlobMatch (g h : String) : Bool :=
  reSearch (parseRe (replaceStarChars g.data)) h.data

/-- `startsWithL n h` holds when `h` begins with `n`. -/
def startsWithL : List Char → List Char → Bool
  | [], _ => true
  | _ :: _, [] => false
  | c :: n, d :: h => c == d && startsWithL n h

/-- `containsL n h` holds when `n` occurs as a contiguous substring of `h`. -/
def containsL (n h : List Char) : Bool := anySuffix (startsWithL n) h

/-- A character the RE2 syntax treats as itself (no metacharacter meaning);
restricted to the alphanumeric/dash/underscore alphabet of hostnames and
tags, the domain on which the glob translation in the source is exercised. -/
def plainChar (c : Char) : Bool := c.isAlphanum || c == '-' || c == '_'

/-- A glob made only of `*` wildcards and plain literal characters: on these
the `ReplaceAll`-then-`regexp` pipeline of the source is exactly the token
semantics above. -/
def plainGlob (g : String) : Bool := g.data.all (fun c => c == '*' || plainChar c)

/-- A glob containing no `*` wildcard. -/
def noStarGlob (g : String) : Bool := g.data.all (fun c => !(c == '*'))

/-- Abstract oracle for Go `regexp.MatchString pattern subject`:
`some b` models `(b, nil)`, `none` models a pattern-compilation error. -/
abbrev MatchOracle := String → String → Option Bool

/-- The pattern string `strings.ReplaceAll(filterHostname, "*", ".*")` that
`filterSensors` hands to `regexp.MatchString` for the hostname check. -/
def hostPattern (c : FilterCriteria) : String :=
  String.mk (replaceStarChars c.filterHostname.data)

/-- The pattern string `strings.ReplaceAll(filterTag, "*", ".*")` that
`filterSensors` hands to `regexp.MatchString` for the tag check. -/
def tagPattern (c : FilterCriteria) : String :=
  String.mk (replaceStarChars c.filterTag.data)

/-- The per-sensor inclusion test of `filterSensors`
(`cmd/lc-sensors/main.go` lines 845-891): the hostname glob, platform,
tag glob and online checks in source order, each failing check excluding the
sensor (`include = false; continue`).  The two `regexp.MatchString` calls go
through the oracle `M`; a compile error (`none`) or a non-match excludes the
sensor at the hostname check, and at the tag check a tag counts as found
only when the call returns `(true, nil)`. -/
def sensorIncluded (M : MatchOracle) (c : FilterCriteria) (s : Sensor) : Bool :=
  (if c.filterHostname ≠ "" then
    match M (hostPattern c) s.Hostname with
    | some true => true
    | _ => false
  else true)
  &&
  (if c.filterPlatform ≠ "" then
    equalFold (lowerStr s.GetPlatformString) c.filterPlatform
  else true)
  &&
  (if c.filterTag ≠ "" then
    s.Tags.any (fun t =>
      match M (tagPattern c) t with
      | some true => true
      | _ => false)
  else true)
  &&
  !(c.onlineOnly && !s.IsOnline)

/-- Embedding of `filterSensors` (`cmd/lc-sensors/main.go` lines 843-897):
appends, in input order, exactly the sensors passing every check. -/
def filterSensors (M : MatchOracle) (c : FilterCriteria) (sensors : List Sensor) :
    List Sensor :=
  sensors.filter (sensorIncluded M c)

/-- The concrete match oracle for patterns produced from plain globs: such
patterns always compile, and the search follows the token semantics. -/
def plainOracle : MatchOracle := fun pat subj =>
  some (reSearch (parseRe pat.data) subj.data)

theorem anySuffix_congr (f g : List Char → Bool) (hfg : ∀ t, f t = g t) :
    ∀ s, anySuffix f s = anySuffix g s
  | [] => by simp [anySuffix, hfg]
  | c :: s => by simp [anySuffix, hfg, anySuffix_congr f g hfg s]

theorem matchL_lits (l : List Char) : ∀ s, matchL (l.map GTok.lit) s = startsWithL l s := by
  induction l with
  | nil => intro s; simp [matchL, startsWithL]
  | cons c l ih =>
    intro s
    cases s with
    | nil => simp [matchL, startsWithL]
    | cons d s => simp [matchL, startsWithL, ih]

theorem replaceStarChars_no_star (l : List Char) (h : ∀ c ∈ l, ¬(c = '*')) :
    replaceStarChars l = l := by
  induction l with
  | nil => rfl
  | cons c l ih =>
    have hc : ¬(c = '*') := h c (List.mem_cons_self c l)
    simp only [replaceStarChars, if_neg hc]
    rw [ih (fun d hd => h d (List.mem_cons_of_mem c hd))]

theorem parseRe_no_dot (l : List Char) (h : ∀ c ∈ l, ¬(c = '.')) :
    parseRe l = l.map GTok.lit := by
  induction l with
  | nil => rfl
  | cons c l ih =>
    rw [parseRe.eq_def]
    split
    · rename_i rest heq
      obtain ⟨h1, -⟩ := List.cons.inj heq
      exact absurd h1 (h c (List.mem_cons_self c l))
    · rename_i d rest heq
      obtain ⟨h1, h2⟩ := List.cons.inj heq
      subst h1; subst h2
      simp [ih (fun e he => h e (List.mem_cons_of_mem c he))]
    · rename_i heq
      simp at heq

theorem plainChar_ne_dot {c : Char} (hc : plainChar c = true) : ¬(c = '.') := by
  intro h; subst h; exact absurd hc (by decide)

/-- For a star-free glob of plain characters, the filter's hostname match is
exactly substring containment. -/
theorem hostGlobMatch_no_star (g h : String) (hp : plainGlob g = true)
    (hs : noStarGlob g = true) : hostGlobMatch g h = containsL g.data h.data := by
  have hstar : ∀ c ∈ g.data, ¬(c = '*') := by
    intro c hc
    have := (List.all_eq_true.mp hs) c hc
    simpa using this
  have hdot : ∀ c ∈ g.data, ¬(c = '.') := by
    intro c hc
    have hpc := (List.all_eq_true.mp hp) c hc
    rcases Bool.or_eq_true_iff.mp hpc with h1 | h2
    · exact absurd (by simpa using h1) (hstar c hc)
    · exact plainChar_ne_dot h2
  unfold hostGlobMatch reSearch containsL
  rw [replaceStarChars_no_star g.data hstar, parseRe_no_dot g.data hdot]
  exact anySuffix_congr _ _ (matchL_lits g.data) h.data

/-- Sensor used to exhibit the unanchored hostname match. -/
def cexSensor : Sensor :=
  { SID := "sid-1", PlatformID := 268435456, Architecture := 2,
    Hostname := "my-web-01", Tags := [], IsOnline := true }

/-- C1 counterexample: the claim says the glob `"web-*"` must not match the
hostname `"my-web-01"`, but `filterSensors` keeps a sensor with that hostname
under the hostname filter `"web-*"`: the glob-derived pattern is handed to an
unanchored `regexp.MatchString`, which finds `web-.*` inside the hostname. -/
theorem C1_hostname_anchoring_cex :
    hostGlobMatch "web-*" "my-web-01" = true ∧
    filterSensors plainOracle
      { filterHostname := "web-*", filterPlatform := "", filterTag := "",
        onlineOnly := false } [cexSensor] = [cexSensor] := by
  constructor
  · decide
  · decide

/-- C1 (amended): the Inventory Filter's hostname match is an UNANCHORED
regex search: the glob is converted by replacing `*` with "any sequence of
characters" and the pattern may match anywhere inside the hostname, so a
pattern containing no `*` matches exactly the hostnames that contain it as a
substring; `"web-*"` matches `"web-01"` and `"web-"` and also `"my-web-01"`,
and `"*web*"` matches `"my-web-01"`. -/
theorem C1_hostname_match_unanchored :
    (∀ g h : String, plainGlob g = true → noStarGlob g = true →
      hostGlobMatch g h = containsL g.data h.data) ∧
    hostGlobMatch "web-*" "web-01" = true ∧
    hostGlobMatch "web-*" "web-" = true ∧
    hostGlobMatch "web-*" "my-web-01" = true ∧
    hostGlobMatch "*web*" "my-web-01" = true :=
  ⟨fun g h hp hs => hostGlobMatch_no_star g h hp hs, by decide, by decide,
    by decide, by decide⟩

/-- Witness for `C1_hostname_match_unanchored` at the concrete star-free glob
`"web"` against hostname `"my-web-01"`. -/
theorem C1_hostname_match_unanchored_witness :
    plainGlob "web" = true ∧ noStarGlob "web" = true ∧
    hostGlobMatch "web" "my-web-01" = containsL "web".data "my-web-01".data :=
  ⟨by decide, by decide,
    C1_hostname_match_unanchored.1 "web" "my-web-01" (by decide) (by decide)⟩

theorem matchSomeTrue (o : Option Bool) :
    (match o with | some true => true | _ => false) = true ↔ o = some true := by
  cases o with
  | none => simp
  | some b => cases b <;> simp

/-- `sensorIncluded` unfolded into the conjunction of the four constraint
propositions, an absent criterion imposing nothing. -/
theorem sensorIncluded_iff (M : MatchOracle) (c : FilterCriteria) (s : Sensor) :
    sensorIncluded M c s = true ↔
      ((c.filterHostname ≠ "" → M (hostPattern c) s.Hostname = some true) ∧
       (c.filterPlatform ≠ "" →
         equalFold (lowerStr s.GetPlatformString) c.filterPlatform = true) ∧
       (c.filterTag ≠ "" → ∃ t ∈ s.Tags, M (tagPattern c) t = some true) ∧
       (c.onlineOnly = true → s.IsOnline = true)) := by
  unfold sensorIncluded
  simp only [Bool.and_eq_true]
  constructor
  · rintro ⟨⟨⟨h1, h2⟩, h3⟩, h4⟩
    refine ⟨?_, ?_, ?_, ?_⟩
    · intro hne
      rw [if_pos hne] at h1
      exact (matchSomeTrue _).mp h1
    · intro hne
      rw [if_pos hne] at h2
      exact h2
    · intro hne
      rw [if_pos hne] at h3
      obtain ⟨t, ht, hmt⟩ := List.any_eq_true.mp h3
      exact ⟨t, ht, (matchSomeTrue _).mp hmt⟩
    · intro hon
      revert h4
      rw [hon]
      cases hIo : s.IsOnline <;> simp
  · rintro ⟨h1, h2, h3, h4⟩
    refine ⟨⟨⟨?_, ?_⟩, ?_⟩, ?_⟩
    · by_cases hne : c.filterHostname = ""
      · simp [hne]
      · rw [if_pos hne]
        exact (matchSomeTrue _).mpr (h1 hne)
    · by_cases hne : c.filterPlatform = ""
      · simp [hne]
      · rw [if_pos hne]
        exact h2 hne
    · by_cases hne : c.filterTag = ""
      · simp [hne]
      · rw [if_pos hne]
        obtain ⟨t, ht, hmt⟩ := h3 hne
        exact List.any_eq_true.mpr ⟨t, ht, (matchSomeTrue _).mpr hmt⟩
    · cases hon : c.onlineOnly
      · simp
      · simp [h4 hon]

/-- C4: for every match oracle, criteria and sensor list, the filter result
is an order-preserving subsequence of the input, and membership in the result
is exactly membership in the input together with satisfaction of every
constraint present in the criteria (constraints AND-combined, an absent
constraint imposing nothing).  The embedding is a pure function, so the
sensor records are not mutated. -/
theorem C4_filter_subsequence_constraints (M : MatchOracle) (c : FilterCriteria)
    (sensors : List Sensor) :
    List.Sublist (filterSensors M c sensors) sensors ∧
    ∀ s : Sensor, s ∈ filterSensors M c sensors ↔
      (s ∈ sensors ∧
        (c.filterHostname ≠ "" → M (hostPattern c) s.Hostname = some true) ∧
        (c.filterPlatform ≠ "" →
          equalFold (lowerStr s.GetPlatformString) c.filterPlatform = true) ∧
        (c.filterTag ≠ "" → ∃ t ∈ s.Tags, M (tagPattern c) t = some true) ∧
        (c.onlineOnly = true → s.IsOnline = true)) := by
  refine ⟨List.filter_sublist sensors, fun s => ?_⟩
  rw [filterSensors, List.mem_filter, sensorIncluded_iff]

/-- Witness for `C4_filter_subsequence_constraints` at a concrete oracle,
criteria and sensor list. -/
theorem C4_filter_subsequence_constraints_witness :
    List.Sublist
      (filterSensors plainOracle
        { filterHostname := "web-*", filterPlatform := "", filterTag := "",
          onlineOnly := false } [cexSensor])
      [cexSensor] :=
  (C4_filter_subsequence_constraints plainOracle
    { filterHostname := "web-*", filterPlatform := "", filterTag := "",
      onlineOnly := false } [cexSensor]).1

/-- C5: filtering with the empty criteria (no hostname glob, no platform, no
tag glob, online-only unset) returns the sensor list unchanged, whatever the
match oracle. -/
theorem C5_filter_empty_criteria_identity (M : MatchOracle) (sensors : List Sensor) :
    filterSensors M emptyCriteria sensors = sensors := by
  unfold filterSensors
  rw [List.filter_eq_self]
  intro s _
  simp [sensorIncluded, emptyCriteria]

/-- C6: a malformed hostname or tag glob — one whose translated pattern fails
to compile, so every `regexp.MatchString` call on it reports an error — makes
the corresponding check a non-match for every sensor: the filter still
returns a list (never an error) and that list is empty. -/
theorem C6_malformed_glob_excludes (M : MatchOracle) (c : FilterCriteria)
    (sensors : List Sensor)
    (h : (c.filterHostname ≠ "" ∧ ∀ x, M (hostPattern c) x = none) ∨
         (c.filterTag ≠ "" ∧ ∀ x, M (tagPattern c) x = none)) :
    filterSensors M c sensors = [] := by
  unfold filterSensors
  rw [List.filter_eq_nil_iff]
  intro s _
  rcases h with ⟨hne, hM⟩ | ⟨hne, hM⟩
  · simp [sensorIncluded, if_pos hne, hM s.Hostname]
  · simp [sensorIncluded, if_pos hne, hM]

/-- Match oracle modelling a pattern that never compiles: every call reports
an error. -/
def noneOracle : MatchOracle := fun _ _ => none

/-- Witness for `C6_malformed_glob_excludes`: a malformed hostname glob
(e.g. `"("`) empties the result on a concrete sensor list. -/
theorem C6_malformed_glob_excludes_witness :
    filterSensors noneOracle
      { filterHostname := "(", filterPlatform := "", filterTag := "",
        onlineOnly := false } [cexSensor] = [] :=
  C6_malformed_glob_excludes noneOracle
    { filterHostname := "(", filterPlatform := "", filterTag := "",
      onlineOnly := false } [cexSensor]
    (Or.inl ⟨by decide, fun _ => rfl⟩)

/-- Result of the `runTagMultiple` tagging loop: how many sensors the loop
issued a `TagSensor` call for, how many of those calls succeeded, and whether
the loop reached the `os.Exit(1)` in its error branch (terminating the
process before the summary). -/
structure TagRunResult where
  attempted : Nat
  succeeded : Nat
  exited : Bool
deriving DecidableEq, Repr

/-- Embedding of the tagging loop of `runTagMultiple`
(`cmd/lc-sensors/main.go` lines 811-820): for each filtered sensor in order,
one `api.TagSensor` call carrying both the add and remove tag sets — the
network outcome abstracted as `tagOk` on the sensor id; on the first failed
call the code prints the error and calls `os.Exit(1)`, so no later sensor is
attempted. -/
def runTagLoop (tagOk : String → Bool) : List Sensor → TagRunResult
  | [] => { attempted := 0, succeeded := 0, exited := false }
  | s :: rest =>
    if tagOk s.SID then
      let r := runTagLoop tagOk rest
      { attempted := r.attempted + 1, succeeded := r.succeeded + 1, exited := r.exited }
    else
      { attempted := 1, succeeded := 0, exited := true }

/-- First sensor of the tag-batch counterexample. -/
def tagSensorA : Sensor :=
  { SID := "s1", PlatformID := 268435456, Architecture := 2,
    Hostname := "web-01", Tags := [], IsOnline := true }

/-- Second sensor of the tag-batch counterexample. -/
def tagSensorB : Sensor :=
  { SID := "s2", PlatformID := 536870912, Architecture := 2,
    Hostname := "web-02", Tags := [], IsOnline := true }

/-- Tag-call oracle that fails exactly on sensor id `"s1"`. -/
def failFirstTag : String → Bool := fun sid => !(sid == "s1")

/-- C2 counterexample: with N = 2 sensors of which the first remote call
fails (k = 1), the claim demands that both sensors be attempted and the
outcome report 1 succeeded / 1 failed; the code instead calls `os.Exit(1)`
inside the loop on the first failure, so only 1 sensor is attempted, none
succeed, and no aggregate outcome is produced. -/
theorem C2_tag_batch_cex :
    runTagLoop failFirstTag [tagSensorA, tagSensorB] =
      { attempted := 1, succeeded := 0, exited := true } ∧
    ¬((runTagLoop failFirstTag [tagSensorA, tagSensorB]).attempted = 2 ∧
      (runTagLoop failFirstTag [tagSensorA, tagSensorB]).succeeded = 1) := by
  decide

/-- C2 (amended): the Tag Batch Mutator attempts the sensors in order and
aborts the whole batch on the first failing call by exiting the process:
exactly the sensors strictly before the first failure are tagged (and one
more call — the failing one — is attempted); only when no call fails are all
N sensors attempted and tagged, with no exit. -/
theorem C2_tag_batch_aborts_on_first_failure (tagOk : String → Bool)
    (sensors : List Sensor) :
    (runTagLoop tagOk sensors).succeeded =
      (sensors.takeWhile (fun s => tagOk s.SID)).length ∧
    (runTagLoop tagOk sensors).exited = !(sensors.all (fun s => tagOk s.SID)) ∧
    (runTagLoop tagOk sensors).attempted =
      (sensors.takeWhile (fun s => tagOk s.SID)).length +
        (if sensors.all (fun s => tagOk s.SID) then 0 else 1) := by
  induction sensors with
  | nil => simp [runTagLoop]
  | cons s rest ih =>
    by_cases h : tagOk s.SID = true
    · simp only [runTagLoop, h, if_true, List.takeWhile_cons, List.all_cons,
        Bool.true_and, List.length_cons]
      exact ⟨by rw [ih.1], by rw [ih.2.1], by rw [ih.2.2]; omega⟩
    · have h' : tagOk s.SID = false := by simpa using h
      simp [runTagLoop, h', List.takeWhile_cons, List.all_cons]

/-- Observable event of one `runRunTask` dispatch: a pacing delay of `d`
seconds, or the submission attempt of command `cmd` to sensor `sid`. -/
inductive Ev where
  | delay (d : Nat)
  | send (sid cmd : String)
deriving DecidableEq, Repr

/-- Embedding of `addRandomDelay` (`cmd/lc-sensors/main.go` lines
1267-1273): when the `--random-delay` flag is set, sleep
`5 + rand.Intn(11)` seconds; `rng k` models the value of the `k`-th call to
`rand.Intn(11)`, a uniform draw from `[0, 11)`.  When the flag is unset
there is no delay and no draw. -/
def addRandomDelay (enabled : Bool) (rng : Nat → Fin 11) (k : Nat) :
    List Ev × Nat :=
  if enabled then ([Ev.delay (5 + (rng k).val)], k + 1) else ([], k)

/-- Accumulated observation of a dispatch: event trace, number of random
draws consumed, and the `successCount` / `failCount` counters of
`runRunTask`. -/
structure DispatchAcc where
  trace : List Ev
  draws : Nat
  succ : Nat
  failCount : Nat
deriving DecidableEq, Repr

/-- Inner loop of `runRunTask` (`cmd/lc-sensors/main.go` lines 1048-1072)
for one sensor, over the indexed command list
(`for i, command := range commands`): a pacing delay before every command
with `i > 0`, then the submission attempt — the remote outcome abstracted as
`ok sid cmd` — which increments `successCount` on success and `failCount` on
failure; in both cases the loop continues with the next command. -/
def goCmdLoop (enabled : Bool) (rng : Nat → Fin 11) (ok : String → String → Bool)
    (sid : String) : List (Nat × String) → Nat → DispatchAcc
  | [], k => { trace := [], draws := k, succ := 0, failCount := 0 }
  | (i, c) :: rest, k =>
    let pre := if 0 < i then addRandomDelay enabled rng k else ([], k)
    let r := goCmdLoop enabled rng ok sid rest pre.2
    { trace := pre.1 ++ Ev.send sid c :: r.trace,
      draws := r.draws,
      succ := if ok sid c then r.succ + 1 else r.succ,
      failCount := if ok sid c then r.failCount else r.failCount + 1 }

/-- Outer loop of `runRunTask` (lines 1047-1073): over the filtered sensors,
running the full command sequence against each before moving to the next,
summing both counters; a sensor with failures does not stop the loop. -/
def goSensorLoop (enabled : Bool) (rng : Nat → Fin 11)
    (ok : String → String → Bool) (cmds : List String) :
    List Sensor → Nat → DispatchAcc
  | [], k => { trace := [], draws := k, succ := 0, failCount := 0 }
  | s :: rest, k =>
    let r1 := goCmdLoop enabled rng ok s.SID cmds.enum k
    let r2 := goSensorLoop enabled rng ok cmds rest r1.draws
    { trace := r1.trace ++ r2.trace, draws := r2.draws,
      succ := r1.succ + r2.succ, failCount := r1.failCount + r2.failCount }

/-- The whole dispatch of `runRunTask`: sensors outer, commands inner,
starting with no random draws consumed. -/
def runRunTaskLoop (enabled : Bool) (rng : Nat → Fin 11)
    (ok : String → String → Bool) (sensors : List Sensor)
    (cmds : List String) : DispatchAcc :=
  goSensorLoop enabled rng ok cmds sensors 0

/-- The submission attempts recorded in a trace, as (sensor id, command)
pairs in order. -/
def sendsOf (t : List Ev) : List (String × String) :=
  t.filterMap (fun e => match e with | Ev.send a b => some (a, b) | _ => none)

theorem sendsOf_append (a b : List Ev) :
    sendsOf (a ++ b) = sendsOf a ++ sendsOf b := by
  simp [sendsOf, List.filterMap_append]

theorem sendsOf_send_cons (a b : String) (t : List Ev) :
    sendsOf (Ev.send a b :: t) = (a, b) :: sendsOf t := by
  simp [sendsOf, List.filterMap_cons]

theorem sendsOf_addRandomDelay (enabled : Bool) (rng : Nat → Fin 11) (k : Nat) :
    sendsOf (addRandomDelay enabled rng k).1 = [] := by
  cases enabled <;> simp [addRandomDelay, sendsOf]

/-- Per-sensor accounting of the inner command loop: every command in the
list yields exactly one submission attempt, in order; the two counters sum
to the number of commands; when every call succeeds the failure counter
is zero. -/
theorem goCmdLoop_spec (enabled : Bool) (rng : Nat → Fin 11)
    (ok : String → String → Bool) (sid : String) :
    ∀ (l : List (Nat × String)) (k : Nat),
      sendsOf (goCmdLoop enabled rng ok sid l k).trace =
        l.map (fun p => (sid, p.2)) ∧
      (goCmdLoop enabled rng ok sid l k).succ +
        (goCmdLoop enabled rng ok sid l k).failCount = l.length ∧
      ((∀ c, ok sid c = true) →
        (goCmdLoop enabled rng ok sid l k).succ = l.length ∧
        (goCmdLoop enabled rng ok sid l k).failCount = 0) := by
  intro l
  induction l with
  | nil => intro k; simp [goCmdLoop, sendsOf]
  | cons p rest ih =>
    intro k
    obtain ⟨i, c⟩ := p
    simp only [goCmdLoop]
    set pre := if 0 < i then addRandomDelay enabled rng k else ([], k) with hpre
    have hsends : sendsOf pre.1 = [] := by
      rw [hpre]
      by_cases hi : 0 < i
      · rw [if_pos hi]; exact sendsOf_addRandomDelay enabled rng k
      · rw [if_neg hi]; rfl
    obtain ⟨ih1, ih2, ih3⟩ := ih pre.2
    refine ⟨?_, ?_, ?_⟩
    · rw [sendsOf_append, hsends, List.nil_append, sendsOf_send_cons, ih1]
      simp
    · by_cases hok : ok sid c = true <;> simp [hok] <;> omega
    · intro hall
      obtain ⟨h1, h2⟩ := ih3 hall
      simp [hall c, h1, h2]

theorem enum_map_pair (sid : String) (cmds : List String) :
    cmds.enum.map (fun p => (sid, p.2)) = cmds.map (fun c => (sid, c)) := by
  conv_rhs => rw [← List.enum_map_snd cmds]
  rw [List.map_map]
  rfl

/-- Whole-dispatch accounting, for any starting draw counter. -/
theorem goSensorLoop_spec (enabled : Bool) (rng : Nat → Fin 11)
    (ok : String → String → Bool) (cmds : List String) :
    ∀ (sensors : List Sensor) (k : Nat),
      sendsOf (goSensorLoop enabled rng ok cmds sensors k).trace =
        sensors.flatMap (fun s => cmds.map (fun c => (s.SID, c))) ∧
      (goSensorLoop enabled rng ok cmds sensors k).succ +
        (goSensorLoop enabled rng ok cmds sensors k).failCount =
          sensors.length * cmds.length ∧
      ((∀ s c, ok s c = true) →
        (goSensorLoop enabled rng ok cmds sensors k).succ =
          sensors.length * cmds.length ∧
        (goSensorLoop enabled rng ok cmds sensors k).failCount = 0) := by
  intro sensors
  induction sensors with
  | nil => intro k; simp [goSensorLoop, sendsOf]
  | cons s rest ih =>
    intro k
    simp only [goSensorLoop]
    obtain ⟨c1, c2, c3⟩ :=
      goCmdLoop_spec enabled rng ok s.SID cmds.enum k
    obtain ⟨ih1, ih2, ih3⟩ :=
      ih (goCmdLoop enabled rng ok s.SID cmds.enum k).draws
    refine ⟨?_, ?_, ?_⟩
    · rw [sendsOf_append, c1, ih1, enum_map_pair, List.flatMap_cons]
    · have hlen : cmds.enum.length = cmds.length := List.enum_length
      simp only [List.length_cons]
      calc _ = (goCmdLoop enabled rng ok s.SID cmds.enum k).succ +
              (goCmdLoop enabled rng ok s.SID cmds.enum k).failCount +
              ((goSensorLoop enabled rng ok cmds rest
                  (goCmdLoop enabled rng ok s.SID cmds.enum k).draws).succ +
               (goSensorLoop enabled rng ok cmds rest
                  (goCmdLoop enabled rng ok s.SID cmds.enum k).draws).failCount) := by
              omega
        _ = cmds.length + rest.length * cmds.length := by rw [c2, ih2, hlen]
        _ = (rest.length + 1) * cmds.length := by ring
    · intro hall
      have h1 := c3 (fun c => hall s.SID c)
      have h2 := ih3 hall
      have hlen : cmds.enum.length = cmds.length := List.enum_length
      simp only [List.length_cons]
      constructor
      · rw [h1.1, h2.1, hlen]; ring
      · rw [h1.2, h2.2]

/-- C3: every one of the M*N (sensor, command) pairs is attempted, in
Cartesian order (outer loop over sensors, inner over commands), whatever the
per-pair outcomes; the two counters always account for all pairs; and when
every submission succeeds the outcome is succeeded = M*N, failed = 0. -/
theorem C3_dispatch_no_early_exit (enabled : Bool) (rng : Nat → Fin 11)
    (ok : String → String → Bool) (sensors : List Sensor) (cmds : List String) :
    sendsOf (runRunTaskLoop enabled rng ok sensors cmds).trace =
      sensors.flatMap (fun s => cmds.map (fun c => (s.SID, c))) ∧
    (runRunTaskLoop enabled rng ok sensors cmds).succ +
      (runRunTaskLoop enabled rng ok sensors cmds).failCount =
        sensors.length * cmds.length ∧
    ((∀ s c, ok s c = true) →
      (runRunTaskLoop enabled rng ok sensors cmds).succ =
        sensors.length * cmds.length ∧
      (runRunTaskLoop enabled rng ok sensors cmds).failCount = 0) :=
  goSensorLoop_spec enabled rng ok cmds sensors 0

/-- Witness for `C3_dispatch_no_early_exit`: dispatching 2 commands to 2
sensors with an always-succeeding oracle yields 4 succeeded and 0 failed. -/
theorem C3_dispatch_no_early_exit_witness :
    (runRunTaskLoop false (fun _ => (0 : Fin 11)) (fun _ _ => true)
      [tagSensorA, tagSensorB] ["c1", "c2"]).succ = 4 ∧
    (runRunTaskLoop false (fun _ => (0 : Fin 11)) (fun _ _ => true)
      [tagSensorA, tagSensorB] ["c1", "c2"]).failCount = 0 :=
  (C3_dispatch_no_early_exit false (fun _ => (0 : Fin 11)) (fun _ _ => true)
    [tagSensorA, tagSensorB] ["c1", "c2"]).2.2 (fun _ _ => rfl)


/-- Spec-side description of the paced trace after the first command
(`specPacedTrace` below): a delay then the send, for each remaining
command, consuming one random draw per delay. -/
def specPacedRest (rng : Nat → Fin 11) (sid : String) :
    List String → Nat → List Ev
  | [], _ => []
  | c :: cs, k =>
    Ev.delay (5 + (rng k).val) :: Ev.send sid c :: specPacedRest rng sid cs (k + 1)

/-- Spec-side description, following the claim's words, of one sensor's
paced command trace: the first command is sent with no preceding delay, and
every later command is preceded by one delay drawn from the 5–15 second
window. -/
def specPacedTrace (rng : Nat → Fin 11) (sid : String) :
    List String → Nat → List Ev
  | [], _ => []
  | c :: cs, k => Ev.send sid c :: specPacedRest rng sid cs k

theorem goCmdLoop_disabled (rng : Nat → Fin 11) (ok : String → String → Bool)
    (sid : String) :
    ∀ (l : List (Nat × String)) (k : Nat),
      (goCmdLoop false rng ok sid l k).trace = l.map (fun p => Ev.send sid p.2) ∧
      (goCmdLoop false rng ok sid l k).draws = k := by
  intro l
  induction l with
  | nil => intro k; simp [goCmdLoop]
  | cons p rest ih =>
    intro k
    obtain ⟨i, c⟩ := p
    have hpre : (if 0 < i then addRandomDelay false rng k else ([], k)) = ([], k) := by
      by_cases hi : 0 < i
      · rw [if_pos hi]; simp [addRandomDelay]
      · rw [if_neg hi]
    simp only [goCmdLoop, hpre]
    obtain ⟨ih1, ih2⟩ := ih k
    simp [ih1, ih2]

theorem goCmdLoop_enabled_enumFrom (rng : Nat → Fin 11)
    (ok : String → String → Bool) (sid : String) :
    ∀ (cs : List String) (j k : Nat), 1 ≤ j →
      (goCmdLoop true rng ok sid (List.enumFrom j cs) k).trace =
        specPacedRest rng sid cs k ∧
      (goCmdLoop true rng ok sid (List.enumFrom j cs) k).draws = k + cs.length := by
  intro cs
  induction cs with
  | nil => intro j k _; simp [goCmdLoop, List.enumFrom, specPacedRest]
  | cons c cs ih =>
    intro j k hj
    have hj0 : 0 < j := hj
    simp only [List.enumFrom, goCmdLoop, if_pos hj0, addRandomDelay, if_pos rfl]
    obtain ⟨ih1, ih2⟩ := ih (j + 1) (k + 1) (by omega)
    simp only [specPacedRest]
    refine ⟨?_, ?_⟩
    · simp [ih1]
    · simp [ih2]; omega

theorem specPacedRest_delay_bounds (rng : Nat → Fin 11) (sid : String) :
    ∀ (cs : List String) (k d : Nat),
      Ev.delay d ∈ specPacedRest rng sid cs k → 5 ≤ d ∧ d ≤ 15 := by
  intro cs
  induction cs with
  | nil => intro k d h; simp [specPacedRest] at h
  | cons c cs ih =>
    intro k d h
    simp only [specPacedRest, List.mem_cons] at h
    rcases h with h | h | h
    · have hv : d = 5 + (rng k).val := by
        injection h
      have : (rng k).val < 11 := (rng k).isLt
      omega
    · cases h
    · exact ih (k + 1) d h

/-- C9: with random pacing enabled, each sensor's command loop emits, before
every command except the first, one delay of `5 + rand.Intn(11)` seconds —
always inside the 5–15 second window; with pacing disabled the trace is the
bare command submissions with no delay events. -/
theorem C9_pacing (rng : Nat → Fin 11) (ok : String → String → Bool)
    (sid : String) (cmds : List String) (k : Nat) :
    (goCmdLoop false rng ok sid cmds.enum k).trace =
      cmds.map (fun c => Ev.send sid c) ∧
    (goCmdLoop true rng ok sid cmds.enum k).trace =
      specPacedTrace rng sid cmds k ∧
    (∀ d : Nat, Ev.delay d ∈ specPacedTrace rng sid cmds k →
      5 ≤ d ∧ d ≤ 15) := by
  refine ⟨?_, ?_, ?_⟩
  · rw [(goCmdLoop_disabled rng ok sid cmds.enum k).1]
    conv_rhs => rw [← List.enum_map_snd cmds]
    rw [List.map_map]
    rfl
  · cases cmds with
    | nil => simp [List.enum, List.enumFrom, goCmdLoop, specPacedTrace]
    | cons c cs =>
      have henum : (c :: cs).enum = (0, c) :: List.enumFrom 1 cs := by
        simp [List.enum, List.enumFrom]
      rw [henum]
      simp only [goCmdLoop, Nat.lt_irrefl, if_neg (by omega : ¬(0 < 0))]
      obtain ⟨h1, _⟩ := goCmdLoop_enabled_enumFrom rng ok sid cs 1 k (by omega)
      simp [h1, specPacedTrace]
  · intro d hd
    cases cmds with
    | nil => simp [specPacedTrace] at hd
    | cons c cs =>
      simp only [specPacedTrace, List.mem_cons] at hd
      rcases hd with h | h
      · cases h
      · exact specPacedRest_delay_bounds rng sid cs k d h

/-- Witness for `C9_pacing`: the delay drawn as `rand.Intn(11) = 0` in a
concrete two-command dispatch lies in the 5–15 window. -/
theorem C9_pacing_witness : 5 ≤ 5 ∧ 5 ≤ 15 :=
  (C9_pacing (fun _ => (0 : Fin 11)) (fun _ _ => true) "s1" ["c1", "c2"] 0).2.2
    5 (by decide)

/-- The extension-request payload built by `CreateReliableTask`
(`internal/api/tasks.go` lines 223-238): a map with keys `task`, `ttl`,
`sid`, and — only when the context string is non-empty — `context`.
`Option` models presence of the `context` key. -/
structure ReliableTaskPayload where
  task : String
  ttl : Int
  sid : String
  context : Option String
deriving DecidableEq, Repr

/-- Embedding of `CreateReliableTask` (`internal/api/tasks.go` lines
223-238): the payload carries the raw command as `task`, the TTL and sensor
id, and adds `context` only if the context argument is non-empty. -/
def CreateReliableTask (sensorID command context : String) (ttl : Int) :
    ReliableTaskPayload :=
  { task := command, ttl := ttl, sid := sensorID,
    context := if context ≠ "" then some context else none }

/-- C7: the Reliable Task Encoder omits the `context` field entirely when the
context string is empty (never sending an empty-string context), and includes
it with the given value when it is non-empty. -/
theorem C7_reliable_task_context (sid cmd : String) (ttl : Int) :
    (CreateReliableTask sid cmd "" ttl).context = none ∧
    ∀ ctx : String, ctx ≠ "" →
      (CreateReliableTask sid cmd ctx ttl).context = some ctx := by
  constructor
  · simp [CreateReliableTask]
  · intro ctx h
    simp [CreateReliableTask, h]

/-- Witness for `C7_reliable_task_context` at TTL 3600 and context
`"ctx1"`. -/
theorem C7_reliable_task_context_witness :
    (CreateReliableTask "sid-1" "dir_list" "" 3600).context = none ∧
    ("ctx1" : String) ≠ "" ∧
    (CreateReliableTask "sid-1" "dir_list" "ctx1" 3600).context = some "ctx1" :=
  ⟨(C7_reliable_task_context "sid-1" "dir_list" 3600).1, by decide,
    (C7_reliable_task_context "sid-1" "dir_list" 3600).2 "ctx1" (by decide)⟩

/-- C8: for a TTL > 0 (the caller contract — the code always passes 3600),
the encoded payload carries the raw command string unmodified as `task`, the
sensor id as `sid`, and the TTL in seconds as `ttl`. -/
theorem C8_reliable_task_fields (sid cmd ctx : String) (ttl : Int)
    (h : 0 < ttl) :
    (CreateReliableTask sid cmd ctx ttl).task = cmd ∧
    (CreateReliableTask sid cmd ctx ttl).sid = sid ∧
    (CreateReliableTask sid cmd ctx ttl).ttl = ttl :=
  ⟨rfl, rfl, rfl⟩

/-- Witness for `C8_reliable_task_fields` at TTL 3600. -/
theorem C8_reliable_task_fields_witness :
    (0 : Int) < 3600 ∧
    ((CreateReliableTask "sid-1" "run --shell-command 'ls'" "ctx1" 3600).task =
        "run --shell-command 'ls'" ∧
      (CreateReliableTask "sid-1" "run --shell-command 'ls'" "ctx1" 3600).sid =
        "sid-1" ∧
      (CreateReliableTask "sid-1" "run --shell-command 'ls'" "ctx1" 3600).ttl =
        3600) :=
  ⟨by decide,
    C8_reliable_task_fields "sid-1" "run --shell-command 'ls'" "ctx1" 3600
      (by decide)⟩

/-- Go `strings.Join(tasks, ",")` over character lists. -/
def joinComma : List (List Char) → List Char
  | [] => []
  | [x] => x
  | x :: y :: rest => x ++ ',' :: joinComma (y :: rest)

/-- Go `strings.Split(s, ",")` over character lists: the comma-separated
pieces of `s`, with `Split("", ",") = [""]`. -/
def splitComma : List Char → List (List Char)
  | [] => [[]]
  | c :: rest =>
    if c = ',' then [] :: splitComma rest
    else
      match splitComma rest with
      | [] => [[c]]
      | g :: gs => (c :: g) :: gs

theorem splitComma_ne_nil (s : List Char) : splitComma s ≠ [] := by
  cases s with
  | nil => simp [splitComma]
  | cons c rest =>
    simp only [splitComma]
    by_cases h : c = ','
    · simp [h]
    · rw [if_neg h]
      cases hs : splitComma rest <;> simp

theorem joinComma_cons_head (c : Char) (g : List Char) (gs : List (List Char)) :
    joinComma ((c :: g) :: gs) = c :: joinComma (g :: gs) := by
  cases gs with
  | nil => rfl
  | cons h t => simp [joinComma]

/-- Splitting on commas and re-joining with commas is the identity: Go
`strings.Join(strings.Split(s, ","), ",") == s`. -/
theorem joinComma_splitComma (s : List Char) :
    joinComma (splitComma s) = s := by
  induction s with
  | nil => rfl
  | cons c rest ih =>
    simp only [splitComma]
    by_cases h : c = ','
    · rw [if_pos h]
      cases hs : splitComma rest with
      | nil => exact absurd hs (splitComma_ne_nil rest)
      | cons g gs =>
        rw [hs] at ih
        simp [joinComma, ih, h]
    · rw [if_neg h]
      cases hs : splitComma rest with
      | nil => exact absurd hs (splitComma_ne_nil rest)
      | cons g gs =>
        rw [hs] at ih
        rw [joinComma_cons_head, ih]

/-- One field of the url-encoded form body. -/
structure FormField where
  key : String
  value : List Char
deriving DecidableEq, Repr

/-- Embedding of the form body built by `TaskSensor`
(`internal/api/tasks.go` lines 78-83): one `tasks` field holding the
commands joined with commas, then `investigation_id` exactly when the
investigation id is non-empty. -/
def TaskSensorForm (tasks : List (List Char)) (investigationID : List Char) :
    List FormField :=
  { key := "tasks", value := joinComma tasks } ::
    (if investigationID ≠ [] then
      [{ key := "investigation_id", value := investigationID }]
    else [])

/-- C10: for a non-empty command list, the immediate-mode submission places
all commands in the single `tasks` form field as their comma-join, adds
`investigation_id` exactly when the investigation id is non-empty, and —
since join after split is the identity — one command string containing a
comma produces exactly the form of the list of its comma-separated
pieces. -/
theorem C10_task_sensor_form (tasks : List (List Char)) (inv : List Char)
    (hne : tasks ≠ []) :
    (TaskSensorForm tasks inv).head? =
      some { key := "tasks", value := joinComma tasks } ∧
    (inv = [] →
      TaskSensorForm tasks inv = [{ key := "tasks", value := joinComma tasks }]) ∧
    (inv ≠ [] →
      TaskSensorForm tasks inv =
        [{ key := "tasks", value := joinComma tasks },
         { key := "investigation_id", value := inv }]) ∧
    (∀ c : List Char, TaskSensorForm [c] inv = TaskSensorForm (splitComma c) inv) := by
  refine ⟨rfl, ?_, ?_, ?_⟩
  · intro h
    simp [TaskSensorForm, h]
  · intro h
    simp [TaskSensorForm, h]
  · intro c
    unfold TaskSensorForm
    rw [show joinComma [c] = c from rfl, joinComma_splitComma]

/-- Witness for `C10_task_sensor_form`: the command `"a,b"` submitted alone
produces the same form as the command list `["a", "b"]`. -/
theorem C10_task_sensor_form_witness :
    TaskSensorForm [['a', ',', 'b']] [] =
      TaskSensorForm (splitComma ['a', ',', 'b']) [] :=
  (C10_task_sensor_form [['a', ',', 'b']] [] (by decide)).2.2.2 ['a', ',', 'b']
